import Mathlib

/-!
Shallow embedding of the replication persistent-state layer
(`sql/rpl_info_file.hh`, `sql/rpl_master_info_file.hh`,
`sql/rpl/change_master.hh`, `sql/rpl/change_master.cc`).

A stream is modelled as the `List Char` of not-yet-consumed bytes.  Readers
return what they read together with the remaining stream.  Following the
repository's convention, a load routine returns `true` on error and `false`
on success.
-/

/-- Modelled from the spec: the stream primitive `my_b_get` (mysys, not under
`src/`) — read one byte from the sequential stream, or EOF. -/
def myBGet (s : List Char) : Option Char × List Char :=
  match s with
  | [] => (none, [])
  | c :: rest => (some c, rest)

/-- Modelled from the spec: the stream primitive `my_b_gets` (mysys, not under
`src/`) — read one line into a buffer of capacity `cap`: up to `cap - 1`
characters, stopping after an included newline; the returned list "includes
the `\n` but excludes the `\0`" (comment in `rpl_info_file.hh`).  Returns the
characters read and the remaining stream. -/
def myBGetsAux : Nat → List Char → List Char × List Char
  | 0, s => ([], s)
  | _ + 1, [] => ([], [])
  | n + 1, c :: rest =>
    if c = '\n' then ([c], rest)
    else
      let (r, s2) := myBGetsAux n rest
      (c :: r, s2)

/-- `my_b_gets(file, buf, cap)` over the char-list stream. -/
def myBGets (cap : Nat) (s : List Char) : List Char × List Char :=
  myBGetsAux (cap - 1) s

/-- Modelled from the spec: unbounded "read one line" (strip nothing; the
newline is consumed but not returned), used by the helpers from `slave.cc`
that are not under `src/`. Returns `none` at immediate end-of-stream. -/
def readLine : List Char → Option (List Char) × List Char
  | [] => (none, [])
  | c :: rest =>
    if c = '\n' then (some [], rest)
    else
      match readLine rest with
      | (none, s2) => (some [c], s2)
      | (some l, s2) => (some (c :: l), s2)

/-! ## Decimal digit rendering (`std::to_chars`)

`toCharsNat` renders the minimal decimal digits of a natural number,
least-significant digit produced last, exactly as `std::to_chars` does for a
non-negative value.  It is written with explicit fuel so that it is
structurally recursive (fuel `n + 1` always suffices since `n / 10 < n` for
`n ≥ 10`). -/

def toCharsAux : Nat → Nat → List Char → List Char
  | 0, _, acc => acc
  | fuel + 1, n, acc =>
    if n < 10 then Nat.digitChar n :: acc
    else toCharsAux fuel (n / 10) (Nat.digitChar (n % 10) :: acc)

/-- Minimal decimal digits of `n` (model of `std::to_chars` on naturals). -/
def toCharsNat (n : Nat) : List Char :=
  toCharsAux (n + 1) n []

/-- Minimal decimal digits with a sign if negative
(model of `std::to_chars` on integers). -/
def intToChars (v : Int) : List Char :=
  if v < 0 then '-' :: toCharsNat (-v).toNat else toCharsNat v.toNat

/-- `IntIOCache::BUF_SIZE<I>` / `int_buf_size<I>`:
`std::numeric_limits<I>::digits10 + 2`.  The instantiations used by the code:
`uint32_t`/`int`/`uint`/`int32_t` give 11, `uint64_t` gives 21,
`unsigned char` gives 4. -/
def intBufSize (digits10 : Nat) : Nat := digits10 + 2

/-- `IntIOCache::to_chars` (`rpl_info_file.hh` lines 74-84): renders the
value with `std::to_chars` and writes exactly `result.ptr - buf` bytes,
i.e. the minimal decimal digits. -/
def IntIOCacheToChars (v : Int) : List Char := intToChars v

/-- `to_chars` of `change_master.cc` (lines 55-66): renders the value with
`std::to_chars` into `buf[int_buf_size<I>]` but then writes
`int_buf_size<I>` bytes — the digits followed by the rest of the buffer,
whose bytes past `result.ptr` are indeterminate.  The indeterminate bytes
are abstracted by the parameter `junk` (one representative byte). -/
def ccToChars (bufSize : Nat) (junk : Char) (v : Int) : List Char :=
  let d := intToChars v
  d ++ List.replicate (bufSize - d.length) junk

/-! ## Decimal digit parsing (`std::from_chars`) -/

/-- Longest digit prefix: returns (value, digit count, rest). -/
def parseDigits : List Char → Nat → Nat → Nat × Nat × List Char
  | [], acc, cnt => (acc, cnt, [])
  | c :: rest, acc, cnt =>
    if c.isDigit then parseDigits rest (acc * 10 + (c.toNat - 48)) (cnt + 1)
    else (acc, cnt, c :: rest)

/-- `std::from_chars` for an unsigned integer type with maximum `max`:
no sign allowed, at least one digit required, longest digit prefix taken,
trailing characters ignored; out-of-range is an error.  Returns `none` on
`ec != OK`. -/
def stdFromCharsUnsigned (max : Nat) (buf : List Char) : Option Nat :=
  let (v, cnt, _) := parseDigits buf 0 0
  if cnt = 0 then none
  else if v > max then none
  else some v

/-- `std::from_chars` for a signed integer type with range `[min, max]`:
an optional leading minus, at least one digit, longest digit prefix,
trailing characters ignored; out-of-range is an error. -/
def stdFromCharsSigned (min max : Int) (buf : List Char) : Option Int :=
  match buf with
  | '-' :: rest =>
    let (v, cnt, _) := parseDigits rest 0 0
    if cnt = 0 then none
    else if -(v : Int) < min then none
    else some (-(v : Int))
  | _ =>
    let (v, cnt, _) := parseDigits buf 0 0
    if cnt = 0 then none
    else if (v : Int) > max then none
    else some (v : Int)

/-- Fixed-notation decimal parsing (`std::from_chars` with
`std::chars_format::fixed`, and the decimal parsing in `strtod`-style
helpers): optional minus, digits optionally containing one decimal point,
at least one digit in total, longest valid prefix, trailing characters
ignored.  Returns `none` when no digit was parsed, else the exact value as
a scaled integer `(num, k)` standing for `num / 10 ^ k` (at every input
appearing in the theorems below the `double` rounding of the source and
the truncation applied afterwards give the same final integer as this
exact representation). -/
def parseFixed (buf : List Char) : Option (Int × Nat) :=
  let (neg, b1) := match buf with
    | '-' :: rest => (true, rest)
    | _ => (false, buf)
  let (ip, cnt1, b2) := parseDigits b1 0 0
  let (fp, cnt2) := match b2 with
    | '.' :: rest =>
      let (f, c, _) := parseDigits rest 0 0
      (f, c)
    | _ => (0, 0)
  if cnt1 + cnt2 = 0 then none
  else
    let num : Int := (ip * 10 ^ cnt2 + fp : Nat)
    some (if neg then -num else num, cnt2)

/-- The exact rational value of a scaled decimal `(num, k)`. -/
def fixedVal (p : Int × Nat) : ℚ := (p.1 : ℚ) / (10 : ℚ) ^ p.2

/-! ## `mariadbd` option globals (`change_master.hh` lines 28-40,
`rpl_master_info_file.hh` lines 36-49): initial values of the process-wide
fallbacks consulted by `DEFAULT` fields. -/

def optMasterConnectRetry : Nat := 60
def optMasterRetryCount : Nat := 100000
def optMasterSsl : Bool := true

/-! ## Trilean boolean fields -/

/-- The trilean enum `{ NO, YES, DEFAULT= -1 }` of
`MasterInfoFile::OptionalBoolField` and `ChangeMaster::OptionalBoolConfig`.
The only values ever stored are `NO`(0), `YES`(1) and `DEFAULT`(-1), so the
source's `value <= DEFAULT` test for default state is `· = DEFAULT` here. -/
inductive Tril
  | NO
  | YES
  | DEFAULT
deriving DecidableEq, Repr

/-- `OptionalBoolField::is_default` (`rpl_master_info_file.hh` line 137):
`value <= DEFAULT`. -/
def Tril.isDefaultB : Tril → Bool
  | .DEFAULT => true
  | _ => false

/-- `OptionalBoolField::operator bool`: effective value, substituting the
fallback option when `DEFAULT`. -/
def Tril.effective (fallback : Bool) : Tril → Bool
  | .DEFAULT => fallback
  | .NO => false
  | .YES => true

/-- `MasterInfoFile::OptionalBoolField::load_from`
(`rpl_master_info_file.hh` lines 149-170): `my_b_gets` into `char buf[3]`
(so at most two characters are read), then switch on `buf[0]`: `'0'` sets
`NO`, `'1'` sets `YES`, anything else (or a zero-length read) is an error
that leaves the value unchanged.  Returns (error, value, rest). -/
def hhBoolLoad (v : Tril) (s : List Char) : Bool × Tril × List Char :=
  let (line, rest) := myBGets 3 s
  match line with
  | [] => (true, v, rest)
  | c :: _ =>
    if c = '0' then (false, .NO, rest)
    else if c = '1' then (false, .YES, rest)
    else (true, v, rest)

/-- `ChangeMaster::OptionalBoolConfig::load_from` (`change_master.cc` lines
97-99): `from_chars<unsigned char>(file, *this)` — `my_b_gets` into
`char buf[int_buf_size<unsigned char> + 1]` (capacity 5), `std::from_chars`
as an `unsigned char` (range 0..255), and on success the assignment
`operator=(bool)` converts the byte, nonzero meaning `YES`. -/
def ccBoolLoad (v : Tril) (s : List Char) : Bool × Tril × List Char :=
  let (line, rest) := myBGets 5 s
  match line with
  | [] => (true, v, rest)
  | _ =>
    match stdFromCharsUnsigned 255 line with
    | none => (true, v, rest)
    | some n => (false, if n = 0 then .NO else .YES, rest)

/-! ## `OptionalField` / `OptionalIntConfig` -/

/-- `MasterInfoFile::OptionalField<T>::is_default`
(`rpl_master_info_file.hh` line 68) and
`ChangeMaster::OptionalIntConfig::is_default` (`change_master.hh` line 84):
`return optional.has_value();`. -/
def OptionalFieldIsDefault (o : Option Nat) : Bool := o.isSome

/-- `OptionalField<T>::set_default` / `OptionalIntConfig::set_default`:
`optional.reset()`. -/
def OptionalFieldSetDefault (_ : Option Nat) : Option Nat := none

/-- `OptionalIntConfig::operator IntType`:
`optional.value_or(mariadbd_option)` — the effective value. -/
def OptionalFieldEffective (fallback : Nat) (o : Option Nat) : Nat :=
  o.getD fallback

/-- `ChangeMaster::OptionalIntConfig::load_from` (`change_master.cc` lines
70-72): `from_chars<IntType>` — `my_b_gets` into a buffer of capacity
`int_buf_size<IntType> + 1`, `std::from_chars`, and on success the parsed
value is stored (`optional.emplace`).  `digits10` selects the type width
(9 for `uint32_t`, 19 for `uint64_t`). -/
def ccIntLoad (digits10 : Nat) (max : Nat) (o : Option Nat) (s : List Char) :
    Bool × Option Nat × List Char :=
  let (line, rest) := myBGets (intBufSize digits10 + 1) s
  match line with
  | [] => (true, o, rest)
  | _ =>
    match stdFromCharsUnsigned max line with
    | none => (true, o, rest)
    | some v => (false, some v, rest)

/-! ## The replication-mode (`use_gtid`) enum fields -/

/-- `MasterInfoFile::master_use_gtid` state:
`enum struct enum_master_use_gtid { NO, CURRENT_POS, SLAVE_POS, DEFAULT }`
(`rpl_master_info_file.hh` line 27), i.e. `DEFAULT = 3`; the mode is kept as
the underlying integer 0..3. -/
def hhUseGtidDEFAULT : Nat := 3

/-- `MasterInfoFile::master_use_gtid::is_default`
(`rpl_master_info_file.hh` lines 278-279):
`mode <= enum_master_use_gtid::DEFAULT`, with `DEFAULT = 3`. -/
def hhUseGtidIsDefault (mode : Nat) : Bool := mode ≤ hhUseGtidDEFAULT

/-- `MasterInfoFile::master_use_gtid::load_from`
(`rpl_master_info_file.hh` lines 289-301): `my_b_gets` into `char buf[2]`
(so at most one character is read); error when nothing was read or
`buf[0] > '2'` or `buf[0] < '0'`; otherwise the mode becomes
`buf[0] - '0'`.  Returns (error, mode, rest). -/
def hhUseGtidLoad (mode : Nat) (s : List Char) : Bool × Nat × List Char :=
  let (line, rest) := myBGets 2 s
  match line with
  | [] => (true, mode, rest)
  | c :: _ =>
    if c > '2' ∨ c < '0' then (true, mode, rest)
    else (false, c.toNat - 48, rest)

/-- `ChangeMaster` state for `master_use_gtid_t` (`change_master.hh` lines
157-183): the enum here is `{ NO, CURRENT_POS, SLAVE_POS, DEFAULT= -1 }`,
kept as an `Int`, plus the cached `gtid_supported` flag. -/
structure UseGtidCfg where
  mode : Int
  gtidSupported : Bool
deriving DecidableEq, Repr

/-- `ChangeMaster::master_use_gtid_t::is_default` (`change_master.hh` lines
173-174): `mode <= enum_master_use_gtid::DEFAULT`, with `DEFAULT = -1`. -/
def UseGtidCfg.isDefaultB (g : UseGtidCfg) : Bool := g.mode ≤ -1

/-- `ChangeMaster::master_use_gtid_t::set_default`: `mode = DEFAULT`. -/
def UseGtidCfg.setDefault (g : UseGtidCfg) : UseGtidCfg :=
  { g with mode := -1 }

/-- `ChangeMaster::master_use_gtid_t::operator enum_master_use_gtid`
(`change_master.cc` lines 138-145), with the global `::master_use_gtid`
(initially `DEFAULT = -1`) passed in as `optUseGtid`. -/
def UseGtidCfg.effective (optUseGtid : Int) (g : UseGtidCfg) : Int :=
  if g.isDefaultB then
    if optUseGtid > -1 then optUseGtid
    else if g.gtidSupported then 2 else 0
  else g.mode

/-- `ChangeMaster::master_use_gtid_t::load_from` (`change_master.cc` lines
148-157): `from_chars` of the underlying `int` (buffer capacity
`int_buf_size<int> + 1 = 12`, range of `int`), then error unless
`CURRENT_POS (1) <= value <= SLAVE_POS (2)`; on success the value is
assigned as the mode. -/
def ccUseGtidLoad (g : UseGtidCfg) (s : List Char) :
    Bool × UseGtidCfg × List Char :=
  let (line, rest) := myBGets 12 s
  match line with
  | [] => (true, g, rest)
  | _ =>
    match stdFromCharsSigned (-2147483648) 2147483647 line with
    | none => (true, g, rest)
    | some v =>
      if v > 2 ∨ v < 1 then (true, g, rest)
      else (false, { g with mode := v }, rest)

/-! ## The millisecond-duration (heartbeat) field of `MasterInfoFile` -/

/-- `SLAVE_MAX_HEARTBEAT_PERIOD` — per the comment at
`rpl_master_info_file.hh` line 346, `2**32 / 1000` (seconds); the constant
itself is declared in `slave.h`, which is not under `src/`. -/
def SLAVE_MAX_HEARTBEAT_PERIOD : ℚ := 4294967296 / 1000

/-- `MasterInfoFile::master_heartbeat_period::load_from`
(`rpl_master_info_file.hh` lines 332-350): `my_b_gets` into
`char buf[IntIOCache::BUF_SIZE<uint32_t> + 3]` (capacity 14), parse the
line with `std::from_chars(..., std::chars_format::fixed)`, error when
nothing was read, the parse fails, `seconds < 0`, or
`seconds > SLAVE_MAX_HEARTBEAT_PERIOD`; otherwise
`operator=(seconds / 1000)` stores the quotient truncated to `uint32_t`.
The state is the inherited `OptionalField<uint32_t>` optional.
With the parsed value as the exact scaled decimal `num / 10 ^ k`, the
source's conditions and truncation are computed in exact integer
arithmetic: `seconds < 0` is `num < 0`,
`seconds > SLAVE_MAX_HEARTBEAT_PERIOD` is
`num * 1000 > 4294967296 * 10 ^ k`, and the `uint32_t` truncation of
`seconds / 1000` (non-negative here) is `num.toNat / (1000 * 10 ^ k)`. -/
def hhHeartbeatLoad (o : Option Nat) (s : List Char) :
    Bool × Option Nat × List Char :=
  let (line, rest) := myBGets 14 s
  match line with
  | [] => (true, o, rest)
  | _ =>
    match parseFixed line with
    | none => (true, o, rest)
    | some (num, k) =>
      if num < 0 ∨ num * 1000 > 4294967296 * 10 ^ k then
        (true, o, rest)
      else (false, some (num.toNat / (1000 * 10 ^ k)), rest)

/-- `MasterInfoFile::master_heartbeat_period::save_to`
(`rpl_master_info_file.hh` lines 355-375): render the stored millisecond
count with `std::to_chars`; if it has more than three digits, write all but
the last three, a `'.'`, then the last three; otherwise write `'0'`, `'.'`,
`3 - size` zeroes, and the digits. -/
def hhHeartbeatSave (ms : Nat) : List Char :=
  let buf := toCharsNat ms
  if 3 < buf.length then
    buf.take (buf.length - 3) ++ '.' :: buf.drop (buf.length - 3)
  else
    '0' :: '.' :: (List.replicate (3 - buf.length) '0' ++ buf)

/-- The spec-side rendering of a millisecond count as decimal seconds:
the whole seconds `ms / 1000`, a point, and the three-digit zero-padded
fraction `ms % 1000`. -/
def padThree (m : Nat) : List Char :=
  List.replicate (3 - (toCharsNat m).length) '0' ++ toCharsNat m

/-! ## Remaining `ChangeMaster` field kinds -/

/-- `ChangeMaster::OptionalPathConfig` state (`change_master.hh` lines
143-154): the `FN_REFLEN` buffer's observable content — the C string in the
buffer, plus the boolean standing for the byte `path[1]` that distinguishes
"empty" from "`DEFAULT`" when the string is empty. -/
structure PathCfg where
  str : List Char
  byte1 : Bool
deriving DecidableEq, Repr

/-- `OptionalPathConfig::is_default` (`change_master.cc` lines 115-117):
`!path[0] && path[1]`. -/
def PathCfg.isDefaultB (p : PathCfg) : Bool := p.str.isEmpty && p.byte1

/-- `OptionalPathConfig::set_default` (`change_master.cc` lines 118-124):
`path[0]= false; path[1]= true`. -/
def PathCfg.setDefault (_ : PathCfg) : PathCfg := { str := [], byte1 := true }

/-- Modelled from the spec: `init_strvar_from_file` (`slave.cc`, not under
`src/`) — §4.1: read a newline-terminated token into a fixed-capacity
buffer, failing at end-of-stream or if the token plus terminator exceeds
the capacity (`FN_REFLEN = 512` at the call sites here). -/
def initStrvarFromFile (cap : Nat) (s : List Char) :
    Bool × Option (List Char) × List Char :=
  match readLine s with
  | (none, rest) => (true, none, rest)
  | (some l, rest) =>
    if l.length + 1 > cap then (true, none, rest)
    else (false, some l, rest)

/-- `OptionalPathConfig::load_from` (`change_master.cc` lines 125-130):
`path[1]= false` then `init_strvar_from_file(path, FN_REFLEN, file, nullptr)`.
Note the source clears the default byte before reading, so a failed read
still leaves the field non-default with the buffer unchanged except for
`path[1]`; with an empty prior string the observable `byte1` is cleared. -/
def PathCfg.load (p : PathCfg) (s : List Char) : Bool × PathCfg × List Char :=
  match initStrvarFromFile 512 s with
  | (true, _, rest) => (true, { p with byte1 := false }, rest)
  | (false, none, rest) => (true, { p with byte1 := false }, rest)
  | (false, some l, rest) => (false, { str := l, byte1 := false }, rest)

/-- `ChangeMaster::master_heartbeat_period_t` state (`change_master.hh`
lines 95-113): a `float` period of seconds, `-1.0` encoding `DEFAULT`; the
float is represented exactly as a rational. -/
structure HeartbeatCfg where
  period : ℚ
deriving DecidableEq, Repr

/-- `master_heartbeat_period_t::is_default` (`change_master.hh` line 105):
`period < 0`. -/
def HeartbeatCfg.isDefaultB (h : HeartbeatCfg) : Bool := h.period < 0

/-- `master_heartbeat_period_t::set_default`: `period= -1.0`. -/
def HeartbeatCfg.setDefault (_ : HeartbeatCfg) : HeartbeatCfg :=
  { period := -1 }

/-- Modelled from the spec: `init_floatvar_from_file(&period, file, 0)`
(`slave.cc`, not under `src/`) — read one line (16-byte buffer) and parse it
as a decimal number; with the zero default argument of the call site a
failed read or parse is an error and leaves the value unchanged. -/
def HeartbeatCfg.load (h : HeartbeatCfg) (s : List Char) :
    Bool × HeartbeatCfg × List Char :=
  let (line, rest) := myBGets 16 s
  match line with
  | [] => (true, h, rest)
  | _ =>
    match parseFixed line with
    | none => (true, h, rest)
    | some p => (false, { period := fixedVal p }, rest)

/-- Modelled from the spec: `init_dynarray_intvar_from_file` (`slave.cc`,
not under `src/`) — §4.2 integer list: read one line, parse the leading
element count, then that many space-prefixed elements; a malformed count or
element fails the field without mutating the array (trailing characters
after the parsed elements are ignored). -/
def parseIdList : Nat → List Char → Option (List Int)
  | 0, _ => some []
  | n + 1, cs =>
    match cs with
    | ' ' :: cs2 =>
      match stdFromCharsSigned (-2147483648) 2147483647 cs2 with
      | none => none
      | some v =>
        let (_, _, cs3) := parseDigits (if cs2.head? = some '-' then cs2.drop 1 else cs2) 0 0
        match parseIdList n cs3 with
        | none => none
        | some vs => some (v :: vs)
    | _ => none

/-- `ChangeMaster::IDListConfig::load_from` (`change_master.cc` lines
165-166), via the spec-modelled `init_dynarray_intvar_from_file`. -/
def idListLoad (l : List Int) (s : List Char) :
    Bool × List Int × List Char :=
  match readLine s with
  | (none, rest) => (true, l, rest)
  | (some line, rest) =>
    match stdFromCharsUnsigned 4294967295 line with
    | none => (true, l, rest)
    | some cnt =>
      let (_, _, afterCnt) := parseDigits line 0 0
      match parseIdList cnt afterCnt with
      | none => (true, l, rest)
      | some vs => (false, vs, rest)

/-- `ChangeMaster::IDListConfig::save_to` (`change_master.cc` lines
171-181): the element count through the padding `to_chars` of
`change_master.cc` (`uint` instantiation, 11 bytes), then each element
prefixed by a space (`int32_t` instantiation, 11 bytes each). -/
def idListSave (junk : Char) (l : List Int) : List Char :=
  ccToChars 11 junk (l.length : Int) ++
    l.flatMap (fun id => ' ' :: ccToChars 11 junk id)

/-! ## The `ChangeMaster` record (`change_master.hh` lines 200-216) -/

structure CM where
  connect_retry : Option Nat
  heartbeat : HeartbeatCfg
  ssl : Tril
  ssl_ca : PathCfg
  ssl_capath : PathCfg
  ssl_cert : PathCfg
  ssl_crl : PathCfg
  ssl_crlpath : PathCfg
  ssl_key : PathCfg
  ssl_cipher : PathCfg
  ssl_verify_server_cert : Tril
  use_gtid : UseGtidCfg
  do_domain_ids : List Int
  ignore_domain_ids : List Int
  retry_count : Option Nat
deriving DecidableEq, Repr

/-- The record with every field reset by its own `set_default()`
(`IDListConfig` has none; the borrowed arrays start empty here). -/
def CM.dflt : CM :=
  { connect_retry := none
    heartbeat := { period := -1 }
    ssl := .DEFAULT
    ssl_ca := { str := [], byte1 := true }
    ssl_capath := { str := [], byte1 := true }
    ssl_cert := { str := [], byte1 := true }
    ssl_crl := { str := [], byte1 := true }
    ssl_crlpath := { str := [], byte1 := true }
    ssl_key := { str := [], byte1 := true }
    ssl_cipher := { str := [], byte1 := true }
    ssl_verify_server_cert := .DEFAULT
    use_gtid := { mode := -1, gtidSupported := true }
    do_domain_ids := []
    ignore_domain_ids := []
    retry_count := none }

/-- The fields reachable from `MASTER_INFO_MAP` (`change_master.cc` lines
203-227), `END_MARKER` apart. -/
inductive FieldId
  | connectRetry | ssl | sslCa | sslCapath | sslCert | sslCipher | sslKey
  | sslCrl | sslCrlpath | sslVerify | heartbeatPeriod | retryCount
  | usingGtid | doDomainIds | ignoreDomainIds
deriving DecidableEq, Repr

/-- A `MASTER_INFO_MAP` entry: a field member pointer, or the null `mem_fn`
of the `END_MARKER` entry. -/
inductive MapEntry
  | field (f : FieldId)
  | endMarker
deriving DecidableEq, Repr

/-- `MASTER_INFO_MAP` (`change_master.cc` lines 203-227) as an association
list in listing order.  (`std::unordered_map` iteration order is
unspecified; every property proved below that involves iterating the map
is insensitive to the order except for the exact byte order of the saved
bare-key lines, for which this listing order is one representative.) -/
def MASTER_INFO_MAP : List (List Char × MapEntry) :=
  [ ("connect_retry".toList, .field .connectRetry)
  , ("ssl".toList, .field .ssl)
  , ("ssl_ca".toList, .field .sslCa)
  , ("ssl_capath".toList, .field .sslCapath)
  , ("ssl_cert".toList, .field .sslCert)
  , ("ssl_cipher".toList, .field .sslCipher)
  , ("ssl_key".toList, .field .sslKey)
  , ("ssl_crl".toList, .field .sslCrl)
  , ("ssl_crlpath".toList, .field .sslCrlpath)
  , ("ssl_verify_server_cert".toList, .field .sslVerify)
  , ("heartbeat_period".toList, .field .heartbeatPeriod)
  , ("retry_count".toList, .field .retryCount)
  , ("using_gtid".toList, .field .usingGtid)
  , ("do_domain_ids".toList, .field .doDomainIds)
  , ("ignore_domain_ids".toList, .field .ignoreDomainIds)
  , ("END_MARKER".toList, .endMarker) ]

/-- `MASTER_INFO_MAP.find(string_view(key, i))`: exact-match lookup. -/
def lookupKey (k : List Char) : Option MapEntry :=
  (MASTER_INFO_MAP.find? (fun p => p.1 = k)).map (fun p => p.2)

/-- Dispatch `config.load_from(file)` through a member pointer
(`found_kv->second.get(this)`). -/
def fieldLoad (f : FieldId) (r : CM) (s : List Char) :
    Bool × CM × List Char :=
  match f with
  | .connectRetry =>
    let (e, v, rest) := ccIntLoad 9 4294967295 r.connect_retry s
    (e, { r with connect_retry := v }, rest)
  | .retryCount =>
    let (e, v, rest) := ccIntLoad 19 18446744073709551615 r.retry_count s
    (e, { r with retry_count := v }, rest)
  | .heartbeatPeriod =>
    let (e, v, rest) := HeartbeatCfg.load r.heartbeat s
    (e, { r with heartbeat := v }, rest)
  | .ssl =>
    let (e, v, rest) := ccBoolLoad r.ssl s
    (e, { r with ssl := v }, rest)
  | .sslVerify =>
    let (e, v, rest) := ccBoolLoad r.ssl_verify_server_cert s
    (e, { r with ssl_verify_server_cert := v }, rest)
  | .sslCa =>
    let (e, v, rest) := PathCfg.load r.ssl_ca s
    (e, { r with ssl_ca := v }, rest)
  | .sslCapath =>
    let (e, v, rest) := PathCfg.load r.ssl_capath s
    (e, { r with ssl_capath := v }, rest)
  | .sslCert =>
    let (e, v, rest) := PathCfg.load r.ssl_cert s
    (e, { r with ssl_cert := v }, rest)
  | .sslCipher =>
    let (e, v, rest) := PathCfg.load r.ssl_cipher s
    (e, { r with ssl_cipher := v }, rest)
  | .sslKey =>
    let (e, v, rest) := PathCfg.load r.ssl_key s
    (e, { r with ssl_key := v }, rest)
  | .sslCrl =>
    let (e, v, rest) := PathCfg.load r.ssl_crl s
    (e, { r with ssl_crl := v }, rest)
  | .sslCrlpath =>
    let (e, v, rest) := PathCfg.load r.ssl_crlpath s
    (e, { r with ssl_crlpath := v }, rest)
  | .usingGtid =>
    let (e, v, rest) := ccUseGtidLoad r.use_gtid s
    (e, { r with use_gtid := v }, rest)
  | .doDomainIds =>
    let (e, v, rest) := idListLoad r.do_domain_ids s
    (e, { r with do_domain_ids := v }, rest)
  | .ignoreDomainIds =>
    let (e, v, rest) := idListLoad r.ignore_domain_ids s
    (e, { r with ignore_domain_ids := v }, rest)

/-- Dispatch `config.set_default()`: each field's override returns `false`
(success); `IDListConfig` has no override, so `Persistent::set_default`
returns `true` (`change_master.hh` line 47). -/
def fieldSetDefault (f : FieldId) (r : CM) : Bool × CM :=
  match f with
  | .connectRetry => (false, { r with connect_retry := none })
  | .retryCount => (false, { r with retry_count := none })
  | .heartbeatPeriod => (false, { r with heartbeat := r.heartbeat.setDefault })
  | .ssl => (false, { r with ssl := .DEFAULT })
  | .sslVerify => (false, { r with ssl_verify_server_cert := .DEFAULT })
  | .sslCa => (false, { r with ssl_ca := r.ssl_ca.setDefault })
  | .sslCapath => (false, { r with ssl_capath := r.ssl_capath.setDefault })
  | .sslCert => (false, { r with ssl_cert := r.ssl_cert.setDefault })
  | .sslCipher => (false, { r with ssl_cipher := r.ssl_cipher.setDefault })
  | .sslKey => (false, { r with ssl_key := r.ssl_key.setDefault })
  | .sslCrl => (false, { r with ssl_crl := r.ssl_crl.setDefault })
  | .sslCrlpath => (false, { r with ssl_crlpath := r.ssl_crlpath.setDefault })
  | .usingGtid => (false, { r with use_gtid := r.use_gtid.setDefault })
  | .doDomainIds => (true, r)
  | .ignoreDomainIds => (true, r)

/-- `member.get(this).is_default()` per field (the overrides described
above; `IDListConfig` inherits `Persistent::is_default`, which returns
`false`). -/
def fieldIsDefault (f : FieldId) (r : CM) : Bool :=
  match f with
  | .connectRetry => OptionalFieldIsDefault r.connect_retry
  | .retryCount => OptionalFieldIsDefault r.retry_count
  | .heartbeatPeriod => r.heartbeat.isDefaultB
  | .ssl => r.ssl.isDefaultB
  | .sslVerify => r.ssl_verify_server_cert.isDefaultB
  | .sslCa => r.ssl_ca.isDefaultB
  | .sslCapath => r.ssl_capath.isDefaultB
  | .sslCert => r.ssl_cert.isDefaultB
  | .sslCipher => r.ssl_cipher.isDefaultB
  | .sslKey => r.ssl_key.isDefaultB
  | .sslCrl => r.ssl_crl.isDefaultB
  | .sslCrlpath => r.ssl_crlpath.isDefaultB
  | .usingGtid => r.use_gtid.isDefaultB
  | .doDomainIds => false
  | .ignoreDomainIds => false

/-! ## `ChangeMaster::load_from` (`change_master.cc` lines 234-290) -/

/-- `MAX_KEY_SIZE = sizeof("ssl_verify_server_cert") = 23`
(`change_master.cc` line 230). -/
def MAX_KEY_SIZE : Nat := 23

/-- Result of the inner character loop of `ChangeMaster::load_from`:
end-of-stream, a key delimited by `'='` (`eq = true`) or `'\n'`
(`eq = false`), or `MAX_KEY_SIZE` characters consumed without a delimiter
(in which case the outer `while` simply starts over on the rest). -/
inductive KeyRead
  | eof
  | chunk (rest : List Char)
  | key (k : List Char) (eq : Bool) (rest : List Char)
deriving DecidableEq, Repr

def readKeyAux : Nat → List Char → List Char → KeyRead
  | 0, _, s => .chunk s
  | _ + 1, _, [] => .eof
  | n + 1, acc, c :: rest =>
    if c = '=' then .key acc.reverse true rest
    else if c = '\n' then .key acc.reverse false rest
    else readKeyAux n (c :: acc) rest

/-- The inner `for (size_t i=0; i < MAX_KEY_SIZE; ++i)` loop reading one
key with `my_b_get`. -/
def readKeyLine (s : List Char) : KeyRead := readKeyAux MAX_KEY_SIZE [] s

/-- The message `sql_print_error("Failed to initialize master info %s", key)`
(`change_master.cc` line 279). -/
def errMsg (k : List Char) : List Char :=
  "Failed to initialize master info ".toList ++ k

/-- One record-load outcome: the error flag returned by
`ChangeMaster::load_from`, the record state, and the list of
`sql_print_error` messages issued, in order. -/
abbrev LoadRes := Bool × CM × List (List Char)

/-- Prefix extra `sql_print_error` messages onto a load outcome. -/
def prependLog (log : List (List Char)) : Option LoadRes → Option LoadRes
  | none => none
  | some (e, r, l) => some (e, r, log ++ l)

/-- `ChangeMaster::load_from`, fuel-indexed (the fuel bounds the number of
outer `while (true)` iterations; every iteration consumes at least one
character, so `s.length + 1` always suffices — see `loadAux_mono`).
Per the source: EOF while reading a key fails the record load; a recognized
`END_MARKER` key succeeds; an unrecognized key is skipped; a recognized key
already seen is skipped (leaving any `=value` part unconsumed); otherwise
`load_from` (when `'='` was found) or `set_default()` runs, and a `true`
return is only logged via `sql_print_error`. -/
def loadAux : Nat → List (List Char) → CM → List Char → Option LoadRes
  | 0, _, _, _ => none
  | fuel + 1, seen, r, s =>
    match readKeyLine s with
    | .eof => some (true, r, [])
    | .chunk rest => loadAux fuel seen r rest
    | .key k eq rest =>
      match lookupKey k with
      | none => loadAux fuel seen r rest
      | some .endMarker => some (false, r, [])
      | some (.field f) =>
        if k ∈ seen then loadAux fuel seen r rest
        else if eq then
          prependLog (if (fieldLoad f r rest).1 then [errMsg k] else [])
            (loadAux fuel (k :: seen) (fieldLoad f r rest).2.1
              (fieldLoad f r rest).2.2)
        else
          prependLog (if (fieldSetDefault f r).1 then [errMsg k] else [])
            (loadAux fuel (k :: seen) (fieldSetDefault f r).2 rest)

/-- `ChangeMaster::load_from` with its sufficient fuel. -/
def CM.load (r : CM) (s : List Char) : Option LoadRes :=
  loadAux (s.length + 1) [] r s

/-- `ChangeMaster::load_from` resumed with a nonempty seen set (used to
state how loading continues after a line has been consumed). -/
def CM.loadSeen (seen : List (List Char)) (r : CM) (s : List Char) :
    Option LoadRes :=
  loadAux (s.length + 1) seen r s

/-! ## `ChangeMaster::save_to` (`change_master.cc` lines 292-328) -/

/-- `ccUseGtidSave`: `to_chars<unsigned char>(static_cast<unsigned char>(
operator enum_master_use_gtid()))` (`change_master.cc` lines 158-163),
through the padding `to_chars` (4 bytes for `unsigned char`). -/
def ccUseGtidSave (junk : Char) (optUseGtid : Int) (g : UseGtidCfg) :
    List Char :=
  ccToChars 4 junk ((g.effective optUseGtid).toNat % 256 : Nat)

/-- The bare keys emitted by the final loop of `ChangeMaster::save_to`:
every map entry with a non-null `mem_fn` whose field reports
`is_default()`. -/
def bareKeys (r : CM) : List (List Char) :=
  MASTER_INFO_MAP.filterMap (fun p =>
    match p.2 with
    | .endMarker => none
    | .field f => if fieldIsDefault f r then some p.1 else none)

/-- `ChangeMaster::save_to`: the three `key=value` conditionals (note
`IDListConfig::is_default` is always `false`, so both domain-id lines are
always written), the bare keys of `DEFAULT`-reporting fields, and the
final `my_b_write(file, END_MARKER, sizeof(END_MARKER))` — `sizeof`
includes the string's terminating NUL, so eleven bytes
`END_MARKER\0` are written, then `'\n'`. -/
def CM.save (junk : Char) (optUseGtid : Int) (r : CM) : List Char :=
  (if ¬ r.use_gtid.isDefaultB then
    "using_gtid=".toList ++ ccUseGtidSave junk optUseGtid r.use_gtid ++ ['\n']
  else []) ++
  (if ¬ (false : Bool) then
    "do_domain_ids=".toList ++ idListSave junk r.do_domain_ids ++ ['\n']
  else []) ++
  (if ¬ (false : Bool) then
    "ignore_domain_ids=".toList ++ idListSave junk r.ignore_domain_ids ++ ['\n']
  else []) ++
  (bareKeys r).flatMap (fun k => k ++ ['\n']) ++
  ("END_MARKER".toList ++ [Char.ofNat 0, '\n'])

/-! ## Claim theorems -/

set_option maxRecDepth 40000

/-- Claim C1 (code bug): saving a validly populated connection record and
loading the bytes back does not succeed.  With `master_connect_retry` set
to 5, `save_to` emits `connect_retry` as a bare key (the inverted
`is_default` reports the SET field as default, dropping the value), and
the sentinel is written as the eleven bytes `END_MARKER\0` (`sizeof`
includes the terminating NUL), so the loader never recognizes it and
`load_from` returns failure at end-of-stream. -/
theorem c1_load_of_save_fails :
    CM.load CM.dflt
      (CM.save '#' (-1) { CM.dflt with connect_retry := some 5 }) =
      some (true, CM.dflt, []) ∧
    "connect_retry".toList ∈ bareKeys { CM.dflt with connect_retry := some 5 } ∧
    OptionalFieldEffective optMasterConnectRetry
      ({ CM.dflt with connect_retry := some 5 } : CM).connect_retry = 5 := by
  refine ⟨by decide, by decide, by decide⟩

/-- Claim C2 (code bug): after a successful `load_from`, `is_default()`
returns `true`, not `false` as the interface documents (`@post is_default()
is false`, `rpl_info_file.hh` line 121 / `change_master.hh` line 50).
`OptionalIntConfig` loading the line `5` stores the value yet reports
default (`optional.has_value()`); `MasterInfoFile::master_use_gtid`
loading `1` sets the mode yet reports default (`mode <= DEFAULT` with
`DEFAULT = 3`). -/
theorem c2_load_success_reports_default :
    (ccIntLoad 9 4294967295 none ("5\n".toList) = (false, some 5, []) ∧
      OptionalFieldIsDefault (some 5) = true) ∧
    (hhUseGtidLoad hhUseGtidDEFAULT ("1".toList) = (false, 1, []) ∧
      hhUseGtidIsDefault 1 = true) := by
  refine ⟨⟨by decide, by decide⟩, by decide, by decide⟩

/-- Claim C3 (code bug): on a record with every field `set_default()`,
the saved extension block omits the bare `connect_retry` key (the inverted
`OptionalIntConfig::is_default` reports the defaulted field as not
default), and loading a bare `connect_retry` line back leaves
`is_default()` returning `false`, not `true`. -/
theorem c3_defaulted_int_key_not_bare :
    "connect_retry".toList ∉ bareKeys CM.dflt ∧
    CM.load CM.dflt ("connect_retry\nEND_MARKER\n".toList) =
      some (false, CM.dflt, []) ∧
    OptionalFieldIsDefault CM.dflt.connect_retry = false := by
  refine ⟨by decide, by decide, by decide⟩

/-- Claim C4 (code bug): `master_heartbeat_period::load_from` stores
`seconds / 1000` where the documented milliseconds representation needs
`seconds * 1000`: loading `1.5` succeeds but stores 0 ms (the claim says
1500), and loading `4294967.295` stores 4294 ms (the claim says
4294967295); negative and malformed input do fail as claimed. -/
theorem c4_heartbeat_load_divides_instead_of_multiplying :
    hhHeartbeatLoad none ("1.5\n".toList) = (false, some 0, []) ∧
    hhHeartbeatLoad none ("4294967.295\n".toList) = (false, some 4294, []) ∧
    hhHeartbeatLoad none ("-1\n".toList) = (true, none, []) ∧
    hhHeartbeatLoad none ("x\n".toList) = (true, none, []) := by
  refine ⟨by decide, by decide, by decide, by decide⟩

/-- Claim C6 counterexample: `ChangeMaster::OptionalBoolConfig::load_from`
accepts the line `7` — numeric input other than `'0'`/`'1'` which the
claim says must fail — and stores `YES`. -/
theorem c6_cc_bool_accepts_other_numeric :
    ccBoolLoad Tril.DEFAULT ("7\n".toList) = (false, Tril.YES, []) := by
  decide

/-- Claim C7 counterexample: `ChangeMaster::master_use_gtid_t::load_from`
fails on the digit `0` (`NO`), which the claim says is the lowest accepted
value. -/
theorem c7_cc_use_gtid_rejects_no :
    ccUseGtidLoad { mode := -1, gtidSupported := true } ("0\n".toList) =
      (true, { mode := -1, gtidSupported := true }, []) := by
  decide

/-- Claim C8 (code bug): for the `uint32_t` value 5, the `to_chars` of
`change_master.cc` writes the whole 11-byte buffer — the digit `5`
followed by ten indeterminate bytes (represented by `'#'`) — while
`IntIOCache::to_chars` writes exactly the minimal one-byte decimal
representation. -/
theorem c8_cc_to_chars_writes_whole_buffer :
    ccToChars (intBufSize 9) '#' 5 = "5##########".toList ∧
    (ccToChars (intBufSize 9) '#' 5).length = 11 ∧
    IntIOCacheToChars 5 = "5".toList := by
  refine ⟨by decide, by decide, by decide⟩

/-- Claim C9 (confirmed): a block with one unknown key then the sentinel
loads successfully, logging nothing and leaving every field at its prior
default; a block repeating `connect_retry` applies only the first
occurrence (the duplicate line is skipped, its value text is then scanned
as an unknown key and also skipped). -/
theorem c9_unknown_and_duplicate_keys_skipped :
    CM.load CM.dflt ("foo\nEND_MARKER\n".toList) =
      some (false, CM.dflt, []) ∧
    CM.load CM.dflt ("connect_retry=5\nconnect_retry=7\nEND_MARKER\n".toList) =
      some (false, { CM.dflt with connect_retry := some 5 }, []) := by
  refine ⟨by decide, by decide⟩

/-- Claim C10 counterexample: on the stream
`connect_retry=x\nEND_MARKER\n`, the `connect_retry` field's `load_from`
(invoked on the value part) fails, yet the record's `load_from` returns
success — the failure is only logged. -/
theorem c10_field_failure_not_propagated :
    CM.load CM.dflt ("connect_retry=x\nEND_MARKER\n".toList) =
      some (false, CM.dflt, [errMsg "connect_retry".toList]) ∧
    (ccIntLoad 9 4294967295 CM.dflt.connect_retry
      ("x\nEND_MARKER\n".toList)).1 = true := by
  refine ⟨by decide, by decide⟩

/-! ## Digit lemmas for the heartbeat save characterization -/

/-- Fuel irrelevance and accumulator shift for `toCharsAux`: with any
sufficient fuel the result is the digits of `n` before `acc`. -/
theorem toCharsAux_eq (n : Nat) : ∀ f acc, n < f →
    toCharsAux f n acc = toCharsNat n ++ acc := by
  induction n using Nat.strong_induction_on with
  | _ n ih =>
    intro f acc hf
    match f, hf with
    | f + 1, _ =>
      by_cases h10 : n < 10
      · simp [toCharsAux, toCharsNat, h10]
      · have hdiv : n / 10 < n := Nat.div_lt_self (by omega) (by omega)
        have hstep : toCharsAux (f + 1) n acc =
            toCharsAux f (n / 10) (Nat.digitChar (n % 10) :: acc) := by
          simp [toCharsAux, h10]
        have hself : toCharsNat n =
            toCharsAux n (n / 10) [Nat.digitChar (n % 10)] := by
          simp [toCharsNat, toCharsAux, h10]
        rw [hstep, ih (n / 10) hdiv f _ (by omega), hself,
          ih (n / 10) hdiv n _ (by omega)]
        simp

/-- A one-digit value renders as its digit character. -/
theorem toCharsNat_lt10 {n : Nat} (h : n < 10) :
    toCharsNat n = [Nat.digitChar n] := by
  simp [toCharsNat, toCharsAux, h]

/-- The recursion of `std::to_chars`: all digits but the last, then the
last digit. -/
theorem toCharsNat_step {n : Nat} (h : 10 ≤ n) :
    toCharsNat n = toCharsNat (n / 10) ++ [Nat.digitChar (n % 10)] := by
  have hself : toCharsNat n =
      toCharsAux n (n / 10) [Nat.digitChar (n % 10)] := by
    simp [toCharsNat, toCharsAux, Nat.not_lt.mpr h]
  rw [hself, toCharsAux_eq (n / 10) n _ (Nat.div_lt_self (by omega) (by omega))]

/-- Two-digit rendering. -/
theorem toCharsNat_two {n : Nat} (h1 : 10 ≤ n) (h2 : n < 100) :
    toCharsNat n = [Nat.digitChar (n / 10), Nat.digitChar (n % 10)] := by
  rw [toCharsNat_step h1, toCharsNat_lt10 (by omega)]
  rfl

/-- Three-digit rendering. -/
theorem toCharsNat_three {n : Nat} (h1 : 100 ≤ n) (h2 : n < 1000) :
    toCharsNat n =
      [Nat.digitChar (n / 100), Nat.digitChar (n / 10 % 10),
       Nat.digitChar (n % 10)] := by
  rw [toCharsNat_step (show 10 ≤ n by omega),
    toCharsNat_two (show 10 ≤ n / 10 by omega) (show n / 10 < 100 by omega)]
  rw [show n / 10 / 10 = n / 100 by omega]
  rfl

/-- Splitting off the last three digits of a value of at least four
digits. -/
theorem toCharsNat_split1000 {n : Nat} (h : 1000 ≤ n) :
    toCharsNat n = toCharsNat (n / 1000) ++
      [Nat.digitChar (n / 100 % 10), Nat.digitChar (n / 10 % 10),
       Nat.digitChar (n % 10)] := by
  rw [toCharsNat_step (show 10 ≤ n by omega),
    toCharsNat_step (show 10 ≤ n / 10 by omega),
    toCharsNat_step (show 10 ≤ n / 10 / 10 by omega)]
  rw [show n / 10 / 10 / 10 = n / 1000 by omega,
    show n / 10 / 10 % 10 = n / 100 % 10 by omega]
  simp

/-- The three low digits produced by `padThree` agree with the digit
characters of `n % 1000`. -/
theorem padThree_eq (n : Nat) :
    padThree (n % 1000) =
      [Nat.digitChar (n / 100 % 10), Nat.digitChar (n / 10 % 10),
       Nat.digitChar (n % 10)] := by
  set m := n % 1000 with hm
  have habc : m = (n / 100 % 10) * 100 + (n / 10 % 10) * 10 + n % 10 := by
    omega
  by_cases h1 : m < 10
  · rw [padThree, toCharsNat_lt10 h1]
    have ha : n / 100 % 10 = 0 := by omega
    have hb : n / 10 % 10 = 0 := by omega
    have hc : n % 10 = m := by omega
    rw [ha, hb, hc]
    rfl
  · by_cases h2 : m < 100
    · rw [padThree, toCharsNat_two (by omega) h2]
      have ha : n / 100 % 10 = 0 := by omega
      have hb : n / 10 % 10 = m / 10 := by omega
      have hc : n % 10 = m % 10 := by omega
      rw [ha, hb, hc]
      rfl
    · have h3 : m < 1000 := by omega
      rw [padThree, toCharsNat_three (by omega) h3]
      have ha : n / 100 % 10 = m / 100 := by omega
      have hb : n / 10 % 10 = m / 10 % 10 := by omega
      have hc : n % 10 = m % 10 := by omega
      rw [ha, hb, hc]
      rfl

/-- `toCharsNat` never returns an empty list. -/
theorem toCharsNat_ne_nil (n : Nat) : toCharsNat n ≠ [] := by
  by_cases h : n < 10
  · rw [toCharsNat_lt10 h]; simp
  · rw [toCharsNat_step (by omega)]; simp

/-- Claim C5 (confirmed): for every millisecond count, the digit-splitting
`master_heartbeat_period::save_to` renders exactly the whole seconds
`ms / 1000`, a decimal point, and the three-digit zero-padded fraction
`ms % 1000` — in particular a count of four or more digits is split at the
last three digits, a shorter count gets integer part `0` with a zero-padded
fraction, and 0 renders as `0.000`. -/
theorem c5_heartbeat_save_renders_decimal_seconds (ms : Nat) :
    hhHeartbeatSave ms = toCharsNat (ms / 1000) ++ '.' :: padThree (ms % 1000) := by
  by_cases h : ms < 1000
  · have hlen : (toCharsNat ms).length ≤ 3 := by
      by_cases h1 : ms < 10
      · rw [toCharsNat_lt10 h1]; simp
      · by_cases h2 : ms < 100
        · rw [toCharsNat_two (show 10 ≤ ms by omega) h2]; simp
        · rw [toCharsNat_three (show 100 ≤ ms by omega) h]; simp
    rw [hhHeartbeatSave, if_neg (by omega), show ms / 1000 = 0 by omega,
      show ms % 1000 = ms by omega]
    rfl
  · have hsplit := toCharsNat_split1000 (show 1000 ≤ ms by omega)
    have hgt : 3 < (toCharsNat ms).length := by
      have h1 : (toCharsNat ms).length = (toCharsNat (ms / 1000)).length + 3 := by
        rw [hsplit]; simp
      have h2 : 0 < (toCharsNat (ms / 1000)).length :=
        List.length_pos.mpr (toCharsNat_ne_nil (ms / 1000))
      omega
    have htake : (toCharsNat ms).take ((toCharsNat ms).length - 3) =
        toCharsNat (ms / 1000) := by
      rw [hsplit]
      simp
    have hdrop : (toCharsNat ms).drop ((toCharsNat ms).length - 3) =
        [Nat.digitChar (ms / 100 % 10), Nat.digitChar (ms / 10 % 10),
         Nat.digitChar (ms % 10)] := by
      rw [hsplit]
      simp
    rw [hhHeartbeatSave, if_pos hgt, htake, hdrop, padThree_eq]

/-! ## The amended trilean and replication-mode characterizations -/

/-- Claim C6 (amended): the MasterInfoFile trilean field decides by the
first byte of the line — for a one-byte stream, loading succeeds exactly
for `'0'` (storing `NO`) and `'1'` (storing `YES`) and fails for every
other byte; the ChangeMaster variant instead uses the general 8-bit
integer parse: a line parsing as 0..255 succeeds with nonzero meaning
`YES` (so `255` loads as true and `256` fails as out of range). -/
theorem c6_trilean_narrow_vs_general (c : Char) (v : Tril) :
    hhBoolLoad v [c] =
      (if c = '0' then (false, Tril.NO, ([] : List Char))
       else if c = '1' then (false, Tril.YES, [])
       else (true, v, [])) ∧
    ccBoolLoad Tril.DEFAULT ("0\n".toList) = (false, Tril.NO, []) ∧
    ccBoolLoad Tril.DEFAULT ("255\n".toList) = (false, Tril.YES, []) ∧
    ccBoolLoad Tril.DEFAULT ("256\n".toList) = (true, Tril.DEFAULT, []) := by
  refine ⟨?_, by decide, by decide, by decide⟩
  have hb : myBGets 3 [c] = ([c], []) := by
    by_cases hn : c = '\n'
    · subst hn; rfl
    · simp [myBGets, myBGetsAux, hn]
  by_cases h0 : c = '0'
  · subst h0; rfl
  · by_cases h1 : c = '1'
    · subst h1; rfl
    · simp [hhBoolLoad, hb, h0, h1]

/-- Claim C7 (amended): the MasterInfoFile variant decides by the first
byte of the line — for a one-byte stream, loading succeeds exactly for the
digits `'0'`..`'2'` (claim as stated), storing `byte - '0'` as the mode;
the ChangeMaster variant parses the line as an integer and accepts exactly
`CURRENT_POS (1)`..`SLAVE_POS (2)`, rejecting `NO (0)` and `3`. -/
theorem c7_use_gtid_accepted_ranges (c : Char) (m : Nat) :
    hhUseGtidLoad m [c] =
      (if '0' ≤ c ∧ c ≤ '2' then (false, c.toNat - 48, ([] : List Char))
       else (true, m, [])) ∧
    ccUseGtidLoad { mode := -1, gtidSupported := true } ("1\n".toList) =
      (false, { mode := 1, gtidSupported := true }, []) ∧
    ccUseGtidLoad { mode := -1, gtidSupported := true } ("2\n".toList) =
      (false, { mode := 2, gtidSupported := true }, []) ∧
    ccUseGtidLoad { mode := -1, gtidSupported := true } ("3\n".toList) =
      (true, { mode := -1, gtidSupported := true }, []) := by
  refine ⟨?_, by decide, by decide, by decide⟩
  have hb : myBGets 2 [c] = ([c], []) := by
    by_cases hn : c = '\n'
    · subst hn; rfl
    · simp [myBGets, myBGetsAux, hn]
  by_cases hin : '0' ≤ c ∧ c ≤ '2'
  · have hno : ¬('2' < c ∨ c < '0') := by
      push_neg
      exact ⟨hin.2, hin.1⟩
    simp [hhUseGtidLoad, hb, hin, hno]
  · have hyes : '2' < c ∨ c < '0' := by
      rcases not_and_or.mp hin with h | h
      · exact Or.inr (lt_of_not_le h)
      · exact Or.inl (lt_of_not_le h)
    simp [hhUseGtidLoad, hb, hin, hyes]

/-! ## Stream-consumption bounds and fuel irrelevance for the record
loader -/

theorem myBGetsAux_rest_le (n : Nat) : ∀ s : List Char,
    (myBGetsAux n s).2.length ≤ s.length := by
  induction n with
  | zero => intro s; simp [myBGetsAux]
  | succ n ih =>
    intro s
    match s with
    | [] => simp [myBGetsAux]
    | c :: rest =>
      by_cases hc : c = '\n'
      · simp [myBGetsAux, hc]
      · have := ih rest
        simp only [myBGetsAux, hc, if_false, List.length_cons]
        omega

theorem myBGets_rest_le (cap : Nat) (s : List Char) :
    (myBGets cap s).2.length ≤ s.length := myBGetsAux_rest_le (cap - 1) s

theorem readLine_rest_le : ∀ s : List Char,
    (readLine s).2.length ≤ s.length := by
  intro s
  induction s with
  | nil => simp [readLine]
  | cons c rest ih =>
    by_cases hc : c = '\n'
    · simp [readLine, hc]
    · simp only [readLine, hc, if_false]
      rcases h : readLine rest with ⟨ol, s2⟩
      rw [h] at ih
      rcases ol with _ | l
      · show s2.length ≤ rest.length + 1
        simp at ih
        omega
      · show s2.length ≤ rest.length + 1
        simp at ih
        omega

theorem ccIntLoad_rest_le (d m : Nat) (o : Option Nat) (s : List Char) :
    (ccIntLoad d m o s).2.2.length ≤ s.length := by
  unfold ccIntLoad
  rcases h : myBGets (intBufSize d + 1) s with ⟨line, rest⟩
  have hle : rest.length ≤ s.length := by
    have h2 := myBGets_rest_le (intBufSize d + 1) s
    rw [h] at h2
    exact h2
  rcases line with _ | ⟨c, l⟩
  · exact hle
  · show (match stdFromCharsUnsigned m (c :: l) with
      | none => (true, o, rest)
      | some v => (false, some v, rest)).2.2.length ≤ s.length
    rcases stdFromCharsUnsigned m (c :: l) with _ | v
    · exact hle
    · exact hle

theorem ccBoolLoad_rest_le (v : Tril) (s : List Char) :
    (ccBoolLoad v s).2.2.length ≤ s.length := by
  unfold ccBoolLoad
  rcases h : myBGets 5 s with ⟨line, rest⟩
  have hle : rest.length ≤ s.length := by
    have h2 := myBGets_rest_le 5 s
    rw [h] at h2
    exact h2
  rcases line with _ | ⟨c, l⟩
  · exact hle
  · show (match stdFromCharsUnsigned 255 (c :: l) with
      | none => (true, v, rest)
      | some n => (false, if n = 0 then Tril.NO else Tril.YES, rest)).2.2.length ≤
        s.length
    rcases stdFromCharsUnsigned 255 (c :: l) with _ | n
    · exact hle
    · exact hle

theorem ccUseGtidLoad_rest_le (g : UseGtidCfg) (s : List Char) :
    (ccUseGtidLoad g s).2.2.length ≤ s.length := by
  unfold ccUseGtidLoad
  rcases h : myBGets 12 s with ⟨line, rest⟩
  have hle : rest.length ≤ s.length := by
    have h2 := myBGets_rest_le 12 s
    rw [h] at h2
    exact h2
  rcases line with _ | ⟨c, l⟩
  · exact hle
  · show (match stdFromCharsSigned (-2147483648) 2147483647 (c :: l) with
      | none => (true, g, rest)
      | some v =>
        if v > 2 ∨ v < 1 then (true, g, rest)
        else (false, { g with mode := v }, rest)).2.2.length ≤ s.length
    rcases stdFromCharsSigned (-2147483648) 2147483647 (c :: l) with _ | v
    · exact hle
    · show (if v > 2 ∨ v < 1 then (true, g, rest)
        else (false, { g with mode := v }, rest)).2.2.length ≤ s.length
      by_cases hv : v > 2 ∨ v < 1
      · rw [if_pos hv]
        exact hle
      · rw [if_neg hv]
        exact hle

theorem hbLoad_rest_le (hb : HeartbeatCfg) (s : List Char) :
    (HeartbeatCfg.load hb s).2.2.length ≤ s.length := by
  unfold HeartbeatCfg.load
  rcases h : myBGets 16 s with ⟨line, rest⟩
  have hle : rest.length ≤ s.length := by
    have h2 := myBGets_rest_le 16 s
    rw [h] at h2
    exact h2
  rcases line with _ | ⟨c, l⟩
  · exact hle
  · show (match parseFixed (c :: l) with
      | none => (true, hb, rest)
      | some p => (false, { period := fixedVal p }, rest)).2.2.length ≤ s.length
    rcases parseFixed (c :: l) with _ | p
    · exact hle
    · exact hle

theorem pathLoad_rest_le (p : PathCfg) (s : List Char) :
    (PathCfg.load p s).2.2.length ≤ s.length := by
  unfold PathCfg.load initStrvarFromFile
  rcases h : readLine s with ⟨ol, rest⟩
  have hle : rest.length ≤ s.length := by
    have h2 := readLine_rest_le s
    rw [h] at h2
    exact h2
  rcases ol with _ | l
  · exact hle
  · show (match (if l.length + 1 > 512 then (true, none, rest)
        else (false, some l, rest) : Bool × Option (List Char) × List Char) with
      | (true, _, rest) => (true, { p with byte1 := false }, rest)
      | (false, none, rest) => (true, { p with byte1 := false }, rest)
      | (false, some l, rest) =>
        (false, ({ str := l, byte1 := false } : PathCfg), rest)).2.2.length ≤
        s.length
    by_cases hl : l.length + 1 > 512
    · rw [if_pos hl]
      exact hle
    · rw [if_neg hl]
      exact hle

theorem idListLoad_rest_le (l : List Int) (s : List Char) :
    (idListLoad l s).2.2.length ≤ s.length := by
  unfold idListLoad
  rcases h : readLine s with ⟨ol, rest⟩
  have hle : rest.length ≤ s.length := by
    have h2 := readLine_rest_le s
    rw [h] at h2
    exact h2
  rcases ol with _ | line
  · exact hle
  · show (match stdFromCharsUnsigned 4294967295 line with
      | none => (true, l, rest)
      | some cnt =>
        match parseIdList cnt (parseDigits line 0 0).2.2 with
        | none => (true, l, rest)
        | some vs => (false, vs, rest)).2.2.length ≤ s.length
    rcases stdFromCharsUnsigned 4294967295 line with _ | cnt
    · exact hle
    · show (match parseIdList cnt (parseDigits line 0 0).2.2 with
        | none => (true, l, rest)
        | some vs => (false, vs, rest)).2.2.length ≤ s.length
      rcases parseIdList cnt (parseDigits line 0 0).2.2 with _ | vs
      · exact hle
      · exact hle

theorem fieldLoad_rest_le (f : FieldId) (r : CM) (s : List Char) :
    (fieldLoad f r s).2.2.length ≤ s.length := by
  cases f <;> simp only [fieldLoad] <;>
    first
      | exact ccIntLoad_rest_le _ _ _ _
      | exact ccBoolLoad_rest_le _ _
      | exact ccUseGtidLoad_rest_le _ _
      | exact hbLoad_rest_le _ _
      | exact pathLoad_rest_le _ _
      | exact idListLoad_rest_le _ _

theorem readKeyAux_chunk_le : ∀ (n : Nat) (acc s rest : List Char),
    readKeyAux n acc s = .chunk rest → rest.length + n ≤ s.length := by
  intro n
  induction n with
  | zero =>
    intro acc s rest h
    simp only [readKeyAux] at h
    cases h
    omega
  | succ n ih =>
    intro acc s rest h
    match s with
    | [] => simp [readKeyAux] at h
    | c :: t =>
      by_cases he : c = '='
      · simp [readKeyAux, he] at h
      · by_cases hn : c = '\n'
        · simp [readKeyAux, he, hn] at h
        · simp only [readKeyAux, he, hn, if_false] at h
          have := ih (c :: acc) t rest h
          simp only [List.length_cons]
          omega

theorem readKeyAux_key_lt : ∀ (n : Nat) (acc s k : List Char) (e : Bool)
    (rest : List Char),
    readKeyAux n acc s = .key k e rest → rest.length < s.length := by
  intro n
  induction n with
  | zero =>
    intro acc s k e rest h
    simp [readKeyAux] at h
  | succ n ih =>
    intro acc s k e rest h
    match s with
    | [] => simp [readKeyAux] at h
    | c :: t =>
      by_cases he : c = '='
      · simp only [readKeyAux, he, if_true] at h
        cases h
        simp
      · by_cases hn : c = '\n'
        · simp only [readKeyAux, he, hn, if_false, if_true] at h
          cases h
          simp
        · simp only [readKeyAux, he, hn, if_false] at h
          have := ih (c :: acc) t k e rest h
          simp only [List.length_cons]
          omega

theorem readKeyLine_chunk_lt {s rest : List Char}
    (h : readKeyLine s = .chunk rest) : rest.length < s.length := by
  have := readKeyAux_chunk_le MAX_KEY_SIZE [] s rest h
  simp [MAX_KEY_SIZE] at this
  omega

theorem readKeyLine_key_lt {s k : List Char} {e : Bool} {rest : List Char}
    (h : readKeyLine s = .key k e rest) : rest.length < s.length :=
  readKeyAux_key_lt MAX_KEY_SIZE [] s k e rest h

/-- Fuel irrelevance of the record loader: any fuel exceeding the stream
length gives the same outcome (each outer iteration of
`ChangeMaster::load_from` consumes at least one character). -/
theorem loadAux_mono : ∀ (f g : Nat) (seen : List (List Char)) (r : CM)
    (s : List Char), s.length < f → s.length < g →
    loadAux f seen r s = loadAux g seen r s := by
  intro f
  induction f with
  | zero => intro g seen r s hf; omega
  | succ f ih =>
    intro g seen r s hf hg
    match g, hg with
    | g + 1, hg =>
      rcases hk : readKeyLine s with _ | rest | ⟨k, e, rest⟩
      · simp only [loadAux, hk]
      · have hlt := readKeyLine_chunk_lt hk
        simp only [loadAux, hk]
        exact ih g seen r rest (by omega) (by omega)
      · have hlt := readKeyLine_key_lt hk
        rcases hl : lookupKey k with _ | entry
        · simp only [loadAux, hk, hl]
          exact ih g seen r rest (by omega) (by omega)
        · cases entry with
          | endMarker => simp only [loadAux, hk, hl]
          | field fd =>
            by_cases hs : k ∈ seen
            · simp only [loadAux, hk, hl, if_pos hs]
              exact ih g seen r rest (by omega) (by omega)
            · simp only [loadAux, hk, hl, if_neg hs]
              by_cases he : e = true
              · simp only [if_pos he]
                have hfl := fieldLoad_rest_le fd r rest
                rw [ih g (k :: seen) (fieldLoad fd r rest).2.1
                  (fieldLoad fd r rest).2.2 (by omega) (by omega)]
              · simp only [if_neg he]
                rw [ih g (k :: seen) (fieldSetDefault fd r).2 rest
                  (by omega) (by omega)]

/-- Claim C10 (amended): a field-level load failure in the extension block
does not propagate — after a recognized `connect_retry=` line whose value
`x` fails the integer parse, the failure is logged via `sql_print_error`
and loading simply continues with the remaining stream (the field left
unchanged, the key marked as seen); the record load's outcome is that of
the rest of the stream.  This holds for every record state and every
continuation stream. -/
theorem c10_amended_field_failure_logged_not_propagated
    (r : CM) (rest : List Char) :
    CM.load r ("connect_retry=x\n".toList ++ rest) =
      prependLog [errMsg "connect_retry".toList]
        (CM.loadSeen ["connect_retry".toList] r rest) := by
  unfold CM.load CM.loadSeen
  rw [show ("connect_retry=x\n".toList ++ rest).length + 1 =
    (16 + rest.length) + 1 from by simp; omega]
  show prependLog [errMsg "connect_retry".toList]
      (loadAux (16 + rest.length) ["connect_retry".toList] r rest) = _
  rw [loadAux_mono (16 + rest.length) (rest.length + 1)
    ["connect_retry".toList] r rest (by omega) (by omega)]
